import Mathlib

/-!
Verification development for the tap-click activation utility
(src/core/src/utils/tap-click.ts) and the accordion component
(src/core/src/components/accordion/accordion.tsx).

The tap-click module is a single-threaded, event-driven state machine.
We embed it shallowly: the module-level mutable variables become fields
of an explicit state record, each handler becomes a state transformer,
and the two `setTimeout` mechanisms become explicit pending-timer values
(`activeDefer` for the add-activated delay; `clearDefers` for the
per-element deferred-clear registry) that are fired by explicit scheduler
events.  Times are integers on a single clock: the event timestamp
`now(ev)` and the wall clock `Date.now()` read the same clock in the
embedding.  The `throw new Error('internal error')` in
`setActivatedElement` is embedded as the `Except.error` case.

Two ghost fields (`activationLog`, `rippleLog`) record the history of
`addActivated` calls and of ripple invocations; they are write-only
instrumentation and never influence control flow.
-/

namespace TapClick

/-- Constant from tap-click.ts: CSS class applied to an activated element. -/
def ACTIVATED : String := "activated"

/-- Constant from tap-click.ts: delay (time units) before the activated
class is applied to a non-instant element. -/
def ADD_ACTIVATED_DEFERS : Int := 200

/-- Constant from tap-click.ts: minimum visible duration window used by
`removeActivated` when smoothing the removal of the activated class. -/
def CLEAR_STATE_DEFERS : Int := 200

/-- Constant from tap-click.ts: window (time units) after a touch event in
which synthetic mouse events are suppressed. -/
def MOUSE_WAIT : Int := 2500

/-- A ripple sub-element as found by `getRippleEffect`; `hasAddRipple`
records whether it exposes an `addRipple` method (the source checks
`rippleEffect && rippleEffect.addRipple`). -/
structure RippleEl where
  hasAddRipple : Bool
deriving DecidableEq, Repr

/-- A DOM element as seen by tap-click.  `activatable` and `instant` are
the static marker classes `ion-activatable` and `ion-activatable-instant`;
`shadowRipple` / `lightRipple` model the result of
`el.shadowRoot.querySelector('ion-ripple-effect')` and
`el.querySelector('ion-ripple-effect')`.  The mutable `activated` class
lives in `TapState.activated`, keyed by `id`. -/
structure Elem where
  id : Nat
  activatable : Bool
  instant : Bool
  shadowRipple : Option RippleEl
  lightRipple : Option RippleEl
deriving DecidableEq, Repr

/-- An entry of a composed event path.  Path entries need not be elements
(window, document); `hasClassList` models the `el.classList &&` guard in
`getActivatableTarget`. -/
structure Node where
  hasClassList : Bool
  elem : Elem
deriving DecidableEq, Repr

/-- An input event.  `time` is `now(ev)`; `x`, `y` are `pointerCoord(ev)`
(modelled from the spec: the pointer-geometry helper in utils/helpers is
not part of the excerpt; it is a pure extraction of a timestamp and
coordinates, defaulting to 0).  `composedPath` is `ev.composedPath()`
when the platform exposes it; `targetChain` is the ancestor chain of
`ev.target`, self first, as walked by `closest`. -/
structure InputEv where
  time : Int
  x : Int
  y : Int
  cancelable : Bool
  composedPath : Option (List Node)
  targetChain : List Elem
deriving DecidableEq, Repr

/-- Modelled from the spec: the configuration contract consumed is two
boolean flags, each defaulting to true when absent; `Config.getBoolean`
itself is not in the excerpt.  A stored `none` means the key is absent. -/
structure Config where
  animated : Option Bool
  rippleEffect : Option Bool
deriving DecidableEq, Repr

/-- Modelled from the spec: `config.getBoolean(key, default)` returns the
stored boolean for the key, or the default when absent. -/
def getBoolean (stored : Option Bool) (deflt : Bool) : Bool :=
  stored.getD deflt

/-- tap-click.ts line 15: `config.getBoolean('animated', true) &&
config.getBoolean('rippleEffect', true)`. -/
def useRippleEffect (config : Config) : Bool :=
  getBoolean config.animated true && getBoolean config.rippleEffect true

/-- The pending add-activated timer created in `setActivatedElement`:
the closure captures the element and the pointer coordinates; `fireAt`
is the scheduled firing instant (creation time + delay). -/
structure AddTimer where
  el : Elem
  x : Int
  y : Int
  fireAt : Int
deriving DecidableEq, Repr

/-- The deferred-clear registry `clearDefers` (a `WeakMap` from element to
timer id in the source), embedded as an association list from element id
to the scheduled firing instant. -/
abbrev DeferMap : Type := List (Nat × Int)

/-- Look up the pending deferred-clear timer for an element id
(`clearDefers.get` / `clearDefers.has`). -/
def lookupDefer (m : DeferMap) (id : Nat) : Option Int :=
  (List.find? (fun p => p.1 = id) m).map (fun p => p.2)

/-- Delete the deferred-clear entry for an element id (`clearDefers.delete`). -/
def delDefer (m : DeferMap) (id : Nat) : DeferMap :=
  List.filter (fun p => ¬ p.1 = id) m

/-- Insert (overwriting) the deferred-clear entry for an element id
(`clearDefers.set`). -/
def setDefer (m : DeferMap) (id : Nat) (fireAt : Int) : DeferMap :=
  (id, fireAt) :: delDefer m id

/-- Add a class-id to the set of elements carrying the `activated` class
(`classList.add`). -/
def addClass (s : List Nat) (id : Nat) : List Nat :=
  if id ∈ s then s else id :: s

/-- Remove a class-id from the set of elements carrying the `activated`
class (`classList.remove`). -/
def removeClass (s : List Nat) (id : Nat) : List Nat :=
  List.filter (fun i => ¬ i = id) s

/-- The state of the tap-click module: the module-level mutable variables
of `startTapClick`, the set of element ids currently carrying the
`activated` class, and two ghost history logs. -/
structure TapState where
  lastTouch : Int
  lastActivated : Int
  cancelled : Bool
  scrolling : Bool
  activatableEle : Option Elem
  activeRipple : Bool
  activeDefer : Option AddTimer
  clearDefers : DeferMap
  activated : List Nat
  activationLog : List Nat
  rippleLog : List (Nat × Int × Int)
deriving DecidableEq, Repr

/-- The initial state of `startTapClick`: `lastTouch = -MOUSE_WAIT * 10`,
`lastActivated = 0`, both flags false, no active element, no timers. -/
def initState : TapState where
  lastTouch := -MOUSE_WAIT * 10
  lastActivated := 0
  cancelled := false
  scrolling := false
  activatableEle := none
  activeRipple := false
  activeDefer := none
  clearDefers := []
  activated := []
  activationLog := []
  rippleLog := []

/-- tap-click.ts `isInstant`: `el.classList.contains('ion-activatable-instant')`. -/
def isInstant (el : Elem) : Bool :=
  el.instant

/-- tap-click.ts `getRippleEffect`: query the shadow root first, then the
light DOM, for an `ion-ripple-effect` sub-element. -/
def getRippleEffect (el : Elem) : Option RippleEl :=
  match el.shadowRipple with
  | some ripple => some ripple
  | none => el.lightRipple

/-- The scan loop of `getActivatableTarget` over a composed path:
`for (let i = 0; i < path.length - 2; i++)` returns the first entry with
a class list containing `ion-activatable`; `bound` is `path.length - 2`. -/
def findActivatable : List Node → Nat → Option Elem
  | _, 0 => none
  | [], _ + 1 => none
  | n :: rest, bound + 1 =>
    if n.hasClassList ∧ n.elem.activatable then some n.elem
    else findActivatable rest bound

/-- tap-click.ts `getActivatableTarget`: scan the composed path (all but
the last two entries) when available, otherwise fall back to
`ev.target.closest('.ion-activatable')` on the plain ancestor chain. -/
def getActivatableTarget (ev : InputEv) : Option Elem :=
  match ev.composedPath with
  | some path => findActivatable path (path.length - 2)
  | none => List.find? (fun e => e.activatable) ev.targetChain

/-- tap-click.ts `addActivated(el, x, y)`: record the activation
timestamp, add the `activated` class, and invoke the ripple capability
when the configuration enables it and the element hosts a ripple
sub-element with an `addRipple` method.  `t` is `Date.now()`.  The ghost
logs record the call and the ripple invocation. -/
def addActivated (config : Config) (t : Int) (el : Elem) (x y : Int)
    (s : TapState) : TapState :=
  let s1 := { s with
    lastActivated := t
    activated := addClass s.activated el.id
    activationLog := s.activationLog ++ [el.id] }
  if useRippleEffect config then
    match getRippleEffect el with
    | some ripple =>
      if ripple.hasAddRipple then
        { s1 with
          activeRipple := true
          rippleLog := s1.rippleLog ++ [(el.id, x, y)] }
      else s1
    | none => s1
  else s1

/-- tap-click.ts `removeActivated(smooth)`: if no element is activating,
do nothing; otherwise, when `smooth` holds, the minimum visible duration
has not elapsed, and the element is not instant, register a deferred
clear firing `CLEAR_STATE_DEFERS` after now; otherwise remove the
`activated` class immediately.  (The pending ripple disposal
`activeRipple.then(remove => remove())` is a side effect on the ripple
object only; it does not change this state.)  `t` is `Date.now()`. -/
def removeActivated (t : Int) (smooth : Bool) (s : TapState) : TapState :=
  match s.activatableEle with
  | none => s
  | some active =>
    let time := CLEAR_STATE_DEFERS - t + s.lastActivated
    if smooth ∧ time > 0 ∧ ¬ isInstant active then
      { s with clearDefers := setDefer s.clearDefers active.id (t + CLEAR_STATE_DEFERS) }
    else
      { s with activated := removeClass s.activated active.id }

/-- The activate half of `setActivatedElement` (tap-click.ts lines
100-114): cancel any deferred clear for the new target, strip a stale
`activated` class, schedule the add-activated timer (zero delay for an
instant element), and record the new owner of the activating slot
(`activatableEle = el`, line 114). -/
def activatePart (t : Int) (el : Option Elem) (x y : Int) (s : TapState) : TapState :=
  match el with
  | some e =>
    let s1 := { s with clearDefers := delDefer s.clearDefers e.id }
    let delay := if isInstant e then 0 else ADD_ACTIVATED_DEFERS
    { s1 with
      activated := removeClass s1.activated e.id
      activeDefer := some ⟨e, x, y, t + delay⟩
      activatableEle := some e }
  | none => { s with activatableEle := none }

/-- tap-click.ts `setActivatedElement(el, ev)`: no-op when `el` is the
element already activating; otherwise cancel the pending add timer,
deactivate the current element (raising `internal error` if it still has
a deferred-clear entry; applying the marker first if it never became
visible), then activate the new target.  `t` is the event time, `x`, `y`
are `pointerCoord(ev)`. -/
def setActivatedElement (config : Config) (t : Int) (el : Option Elem)
    (x y : Int) (s : TapState) : Except String TapState :=
  if el.isSome ∧ el = s.activatableEle then
    Except.ok s
  else
    let s1 := { s with activeDefer := none }
    match s1.activatableEle with
    | some a =>
      if lookupDefer s1.clearDefers a.id ≠ none then
        Except.error "internal error"
      else
        let s2 := if a.id ∈ s1.activated then s1 else addActivated config t a x y s1
        let s3 := removeActivated t true s2
        Except.ok (activatePart t el x y s3)
    | none => Except.ok (activatePart t el x y s1)

/-- tap-click.ts `cancelActive()`: clear the pending add timer, remove
the current element's activation without smoothing, empty the slot, and
set the cancelled flag.  `t` is `Date.now()`. -/
def cancelActive (t : Int) (s : TapState) : TapState :=
  let s1 := { s with activeDefer := none }
  match s1.activatableEle with
  | some _ =>
    let s2 := removeActivated t false s1
    { s2 with activatableEle := none, cancelled := true }
  | none => { s1 with cancelled := true }

/-- tap-click.ts `pointerDown(ev)`: ignored when an element is already
activating or while scrolling; otherwise clear the cancelled flag and
request activation of the resolved target. -/
def pointerDown (config : Config) (ev : InputEv) (s : TapState) :
    Except String TapState :=
  if s.activatableEle.isSome ∨ s.scrolling then
    Except.ok s
  else
    setActivatedElement config ev.time (getActivatableTarget ev) ev.x ev.y
      { s with cancelled := false }

/-- tap-click.ts `pointerUp(ev)`: ignored while scrolling; otherwise
deactivate the current element.  (The `preventDefault` on a cancelled,
cancelable event is an effect on the event only, not on this state.) -/
def pointerUp (config : Config) (ev : InputEv) (s : TapState) :
    Except String TapState :=
  if s.scrolling then
    Except.ok s
  else
    setActivatedElement config ev.time none ev.x ev.y s

/-- tap-click.ts `onTouchStart`: record `lastTouch` and forward to
`pointerDown`. -/
def onTouchStart (config : Config) (ev : InputEv) (s : TapState) :
    Except String TapState :=
  pointerDown config ev { s with lastTouch := ev.time }

/-- tap-click.ts `onTouchEnd` (also bound to touchcancel): record
`lastTouch` and forward to `pointerUp`. -/
def onTouchEnd (config : Config) (ev : InputEv) (s : TapState) :
    Except String TapState :=
  pointerUp config ev { s with lastTouch := ev.time }

/-- tap-click.ts `onMouseDown`: forward to `pointerDown` only when the
last touch is older than `MOUSE_WAIT` before this event. -/
def onMouseDown (config : Config) (ev : InputEv) (s : TapState) :
    Except String TapState :=
  if s.lastTouch < ev.time - MOUSE_WAIT then
    pointerDown config ev s
  else
    Except.ok s

/-- tap-click.ts `onMouseUp`: forward to `pointerUp` only when the last
touch is older than `MOUSE_WAIT` before this event. -/
def onMouseUp (config : Config) (ev : InputEv) (s : TapState) :
    Except String TapState :=
  if s.lastTouch < ev.time - MOUSE_WAIT then
    pointerUp config ev s
  else
    Except.ok s

/-- tap-click.ts `onBodyClick`: returns whether the click is suppressed
(`preventDefault` and `stopPropagation`), namely when the session is
cancelled or scrolling. -/
def onBodyClick (s : TapState) : Bool :=
  s.cancelled || s.scrolling

/-- The events the document listeners and the timer queue can deliver to
the state machine.  `fireAdd` fires the pending add-activated timer;
`fireClear id` fires the deferred-clear timer registered for element
`id`; a cancelled timer (no longer present in the state) never fires. -/
inductive Ev where
  | touchStart (ev : InputEv)
  | touchEnd (ev : InputEv)
  | mouseDown (ev : InputEv)
  | mouseUp (ev : InputEv)
  | scrollStart (t : Int)
  | scrollEnd
  | gestureCaptured (t : Int)
  | fireAdd
  | fireClear (id : Nat)
deriving DecidableEq, Repr

/-- One step of the event loop: dispatch a single event to the handler
registered for it in `startTapClick`.  The add-activated timer callback
is `addActivated(el, x, y); activeDefer = undefined`; the deferred-clear
callback is `active.classList.remove(ACTIVATED); clearDefers.delete(active)`. -/
def step (config : Config) (s : TapState) : Ev → Except String TapState
  | Ev.touchStart ev => onTouchStart config ev s
  | Ev.touchEnd ev => onTouchEnd config ev s
  | Ev.mouseDown ev => onMouseDown config ev s
  | Ev.mouseUp ev => onMouseUp config ev s
  | Ev.scrollStart t => Except.ok (cancelActive t { s with scrolling := true })
  | Ev.scrollEnd => Except.ok { s with scrolling := false }
  | Ev.gestureCaptured t => Except.ok (cancelActive t s)
  | Ev.fireAdd =>
    match s.activeDefer with
    | some d =>
      Except.ok { addActivated config d.fireAt d.el d.x d.y s with activeDefer := none }
    | none => Except.ok s
  | Ev.fireClear id =>
    match lookupDefer s.clearDefers id with
    | some _ =>
      Except.ok { s with
        activated := removeClass s.activated id
        clearDefers := delDefer s.clearDefers id }
    | none => Except.ok s

/-- Run the machine from a given state over a list of events, stopping at
the first internal error. -/
def runFrom (config : Config) (s : TapState) : List Ev → Except String TapState
  | [] => Except.ok s
  | e :: es =>
    match step config s e with
    | Except.ok s1 => runFrom config s1 es
    | Except.error msg => Except.error msg

/-- Run the machine from the initial state of `startTapClick`. -/
def runTrace (config : Config) (evs : List Ev) : Except String TapState :=
  runFrom config initState evs

end TapClick

namespace Accordion

/-!
Embedding of the accordion component (accordion.tsx).  Rendering and the
framework lifecycle are out of scope; we embed the state the component
owns (`expanded`, the `value` prop, the captured group reference) and the
three methods the claims are about: `connectedCallback` (which looks up
the closest `ion-accordion-group` ancestor), `updateState` (the
`ionChange` listener) and `toggleExpanded` (the header click handler).
-/

/-- The `value` of an `ion-accordion-group`: absent, a single string, or
an array of strings (`Array.isArray` distinguishes the last case). -/
inductive GroupValue where
  | undef
  | one (v : String)
  | many (vs : List String)
deriving DecidableEq, Repr

/-- The accordion group element as the accordion observes it: only its
current `value` matters to `updateState`. -/
structure AccordionGroup where
  value : GroupValue
deriving DecidableEq, Repr

/-- The state the accordion component owns: the `expanded` state field,
the `value` prop, and the group reference captured in
`connectedCallback` (possibly null). -/
structure AccordionState where
  expanded : Bool
  value : Option String
  accordionGroupEl : Option AccordionGroup
deriving DecidableEq, Repr

/-- accordion.tsx `updateState` line 94: `Array.isArray(value) ?
value.includes(accordionValue) : value === accordionValue` (a `===`
against an absent group value is false). -/
def valueMatches (groupValue : GroupValue) (accordionValue : String) : Bool :=
  match groupValue with
  | GroupValue.undef => false
  | GroupValue.one v => v = accordionValue
  | GroupValue.many vs => accordionValue ∈ vs

/-- accordion.tsx `updateState`: return unchanged when the accordion's
`value` is undefined or no group reference was captured; otherwise set
`expanded` from the group's current value. -/
def updateState (a : AccordionState) : AccordionState :=
  match a.value, a.accordionGroupEl with
  | some accordionValue, some group =>
    { a with expanded := valueMatches group.value accordionValue }
  | _, _ => a

/-- The request `toggleExpanded` sends to the group:
`requestAccordionToggle(value, !expanded)`. -/
structure ToggleRequest where
  value : Option String
  expand : Bool
deriving DecidableEq, Repr

/-- accordion.tsx `toggleExpanded`: when a group reference exists, emit a
toggle request carrying the accordion's value and the negated expanded
flag; the accordion's own state is not written.  The returned pair is
(state after the call, request sent to the group, if any). -/
def toggleExpanded (a : AccordionState) : AccordionState × Option ToggleRequest :=
  match a.accordionGroupEl with
  | some _ => (a, some ⟨a.value, !a.expanded⟩)
  | none => (a, none)

/-- accordion.tsx `connectedCallback`: capture the closest
`ion-accordion-group` ancestor (`closestGroup`, supplied by the DOM
environment) and, when one exists, run `updateState` once and subscribe
to its `ionChange` signal. -/
def connectedCallback (closestGroup : Option AccordionGroup)
    (a : AccordionState) : AccordionState :=
  let a1 := { a with accordionGroupEl := closestGroup }
  match closestGroup with
  | some _ => updateState a1
  | none => a1

end Accordion

namespace TapClick

/-! Helper lemmas about the deferred-clear registry. -/

theorem lookupDefer_delDefer_self (m : DeferMap) (id : Nat) :
    lookupDefer (delDefer m id) id = none := by
  induction m with
  | nil => rfl
  | cons p rest ih =>
    by_cases h : p.1 = id
    · have h2 : delDefer (p :: rest) id = delDefer rest id := by
        simp [delDefer, List.filter_cons, h]
      rw [h2]
      exact ih
    · have h2 : delDefer (p :: rest) id = p :: delDefer rest id := by
        simp [delDefer, List.filter_cons, h]
      rw [h2]
      simpa [lookupDefer, List.find?_cons, h] using ih

theorem lookupDefer_delDefer_none (m : DeferMap) (i id : Nat)
    (h : lookupDefer m id = none) : lookupDefer (delDefer m i) id = none := by
  induction m with
  | nil => rfl
  | cons p rest ih =>
    have hp : ¬ p.1 = id := by
      intro hp
      simp [lookupDefer, List.find?_cons, hp] at h
    have h1 : lookupDefer rest id = none := by
      simpa [lookupDefer, List.find?_cons, hp] using h
    by_cases hi : p.1 = i
    · simpa [delDefer, List.filter_cons, hi] using ih h1
    · have h2 : delDefer (p :: rest) i = p :: delDefer rest i := by
        simp [delDefer, List.filter_cons, hi]
      rw [h2]
      simpa [lookupDefer, List.find?_cons, hp] using ih h1

theorem lookupDefer_setDefer_self (m : DeferMap) (id : Nat) (fireAt : Int) :
    lookupDefer (setDefer m id fireAt) id = some fireAt := by
  simp [setDefer, lookupDefer, List.find?]

theorem not_mem_removeClass (s : List Nat) (id : Nat) :
    id ∉ removeClass s id := by
  intro h
  have := List.of_mem_filter h
  simp at this

theorem mem_addClass (s : List Nat) (id : Nat) : id ∈ addClass s id := by
  unfold addClass
  split
  · assumption
  · exact List.mem_cons_self id s

/-! Field-preservation lemmas for the state transformers. -/

theorem addActivated_clearDefers (config : Config) (t : Int) (el : Elem)
    (x y : Int) (s : TapState) :
    (addActivated config t el x y s).clearDefers = s.clearDefers := by
  unfold addActivated
  split
  · split
    · split <;> rfl
    · rfl
  · rfl

theorem addActivated_activatableEle (config : Config) (t : Int) (el : Elem)
    (x y : Int) (s : TapState) :
    (addActivated config t el x y s).activatableEle = s.activatableEle := by
  unfold addActivated
  split
  · split
    · split <;> rfl
    · rfl
  · rfl

theorem addActivated_activeDefer (config : Config) (t : Int) (el : Elem)
    (x y : Int) (s : TapState) :
    (addActivated config t el x y s).activeDefer = s.activeDefer := by
  unfold addActivated
  split
  · split
    · split <;> rfl
    · rfl
  · rfl

theorem addActivated_lastTouch (config : Config) (t : Int) (el : Elem)
    (x y : Int) (s : TapState) :
    (addActivated config t el x y s).lastTouch = s.lastTouch := by
  unfold addActivated
  split
  · split
    · split <;> rfl
    · rfl
  · rfl

theorem addActivated_activated (config : Config) (t : Int) (el : Elem)
    (x y : Int) (s : TapState) :
    (addActivated config t el x y s).activated = addClass s.activated el.id := by
  unfold addActivated
  split
  · split
    · split <;> rfl
    · rfl
  · rfl

theorem addActivated_lastActivated (config : Config) (t : Int) (el : Elem)
    (x y : Int) (s : TapState) :
    (addActivated config t el x y s).lastActivated = t := by
  unfold addActivated
  split
  · split
    · split <;> rfl
    · rfl
  · rfl

theorem removeActivated_activatableEle (t : Int) (smooth : Bool) (s : TapState) :
    (removeActivated t smooth s).activatableEle = s.activatableEle := by
  simp only [removeActivated]
  split
  · rfl
  · split <;> rfl

theorem removeActivated_activeDefer (t : Int) (smooth : Bool) (s : TapState) :
    (removeActivated t smooth s).activeDefer = s.activeDefer := by
  simp only [removeActivated]
  split
  · rfl
  · split <;> rfl

theorem removeActivated_lastTouch (t : Int) (smooth : Bool) (s : TapState) :
    (removeActivated t smooth s).lastTouch = s.lastTouch := by
  simp only [removeActivated]
  split
  · rfl
  · split <;> rfl

/-- The invariant backing the internal-error check: the element currently
owning the activating slot never has a pending deferred-clear entry. -/
def SlotClear (s : TapState) : Prop :=
  ∀ a : Elem, s.activatableEle = some a → lookupDefer s.clearDefers a.id = none

theorem slotClear_congr {s s1 : TapState} (h : SlotClear s)
    (he : s1.activatableEle = s.activatableEle)
    (hc : s1.clearDefers = s.clearDefers) : SlotClear s1 := by
  intro a ha
  rw [hc]
  exact h a (he ▸ ha)

theorem slotClear_initState : SlotClear initState := by
  intro a ha
  simp [initState] at ha

theorem activatePart_slotClear (t : Int) (el : Option Elem) (x y : Int)
    (s : TapState) : SlotClear (activatePart t el x y s) := by
  cases el with
  | some e =>
    intro a ha
    have he : some e = some a := by
      calc some e = (activatePart t (some e) x y s).activatableEle := rfl
        _ = some a := ha
    cases he
    exact lookupDefer_delDefer_self s.clearDefers e.id
  | none =>
    intro a ha
    exact absurd ha (by simp [activatePart])

theorem setActivatedElement_ok (config : Config) (t : Int) (el : Option Elem)
    (x y : Int) (s : TapState) (h : SlotClear s) :
    ∃ s1, setActivatedElement config t el x y s = Except.ok s1 ∧ SlotClear s1 := by
  unfold setActivatedElement
  split
  · exact ⟨s, rfl, h⟩
  · dsimp only
    cases ha : s.activatableEle with
    | some a =>
      have hl : lookupDefer s.clearDefers a.id = none := h a ha
      dsimp only
      rw [if_neg (by simp [hl])]
      exact ⟨_, rfl, activatePart_slotClear _ _ _ _ _⟩
    | none => exact ⟨_, rfl, activatePart_slotClear _ _ _ _ _⟩

theorem cancelActive_activatableEle (t : Int) (s : TapState) :
    (cancelActive t s).activatableEle = none := by
  unfold cancelActive
  dsimp only
  cases hs : s.activatableEle
  · rfl
  · rfl

theorem cancelActive_activeDefer (t : Int) (s : TapState) :
    (cancelActive t s).activeDefer = none := by
  unfold cancelActive
  dsimp only
  cases hs : s.activatableEle
  · rfl
  · exact removeActivated_activeDefer t false _

theorem cancelActive_cancelled (t : Int) (s : TapState) :
    (cancelActive t s).cancelled = true := by
  unfold cancelActive
  dsimp only
  cases hs : s.activatableEle <;> rfl

theorem cancelActive_slotClear (t : Int) (s : TapState) :
    SlotClear (cancelActive t s) := by
  intro a ha
  rw [cancelActive_activatableEle] at ha
  cases ha

theorem pointerDown_ok (config : Config) (ev : InputEv) (s : TapState)
    (h : SlotClear s) :
    ∃ s1, pointerDown config ev s = Except.ok s1 ∧ SlotClear s1 := by
  unfold pointerDown
  split
  · exact ⟨s, rfl, h⟩
  · exact setActivatedElement_ok config ev.time (getActivatableTarget ev) ev.x ev.y
      { s with cancelled := false } (slotClear_congr h rfl rfl)

theorem pointerUp_ok (config : Config) (ev : InputEv) (s : TapState)
    (h : SlotClear s) :
    ∃ s1, pointerUp config ev s = Except.ok s1 ∧ SlotClear s1 := by
  unfold pointerUp
  split
  · exact ⟨s, rfl, h⟩
  · exact setActivatedElement_ok config ev.time none ev.x ev.y s h

theorem step_ok (config : Config) (s : TapState) (ev : Ev) (h : SlotClear s) :
    ∃ s1, step config s ev = Except.ok s1 ∧ SlotClear s1 := by
  cases ev with
  | touchStart e =>
    exact pointerDown_ok config e _ (slotClear_congr h rfl rfl)
  | touchEnd e =>
    exact pointerUp_ok config e _ (slotClear_congr h rfl rfl)
  | mouseDown e =>
    simp only [step, onMouseDown]
    split
    · exact pointerDown_ok config e s h
    · exact ⟨s, rfl, h⟩
  | mouseUp e =>
    simp only [step, onMouseUp]
    split
    · exact pointerUp_ok config e s h
    · exact ⟨s, rfl, h⟩
  | scrollStart t =>
    exact ⟨_, rfl, cancelActive_slotClear t _⟩
  | scrollEnd =>
    exact ⟨_, rfl, slotClear_congr h rfl rfl⟩
  | gestureCaptured t =>
    exact ⟨_, rfl, cancelActive_slotClear t s⟩
  | fireAdd =>
    simp only [step]
    cases hd : s.activeDefer with
    | some d =>
      refine ⟨_, rfl, slotClear_congr h ?_ ?_⟩
      · simpa using addActivated_activatableEle config d.fireAt d.el d.x d.y s
      · simpa using addActivated_clearDefers config d.fireAt d.el d.x d.y s
    | none => exact ⟨s, rfl, h⟩
  | fireClear id =>
    simp only [step]
    cases hft : lookupDefer s.clearDefers id with
    | some ft =>
      refine ⟨_, rfl, ?_⟩
      intro a ha
      exact lookupDefer_delDefer_none s.clearDefers id a.id (h a ha)
    | none => exact ⟨s, rfl, h⟩

theorem runFrom_ok (config : Config) (evs : List Ev) :
    ∀ s : TapState, SlotClear s → ∃ s1, runFrom config s evs = Except.ok s1 ∧ SlotClear s1 := by
  induction evs with
  | nil => exact fun s h => ⟨s, rfl, h⟩
  | cons e es ih =>
    intro s h
    obtain ⟨s1, hs1, h1⟩ := step_ok config s e h
    obtain ⟨s2, hs2, h2⟩ := ih s1 h1
    refine ⟨s2, ?_, h2⟩
    simp [runFrom, hs1, hs2]

/-- The pending add-activated timer, when present, always belongs to the
element currently owning the activating slot. -/
def DeferOwned (s : TapState) : Prop :=
  ∀ d : AddTimer, s.activeDefer = some d → s.activatableEle = some d.el

theorem deferOwned_congr {s s1 : TapState} (h : DeferOwned s)
    (he : s1.activatableEle = s.activatableEle)
    (hd : s1.activeDefer = s.activeDefer) : DeferOwned s1 := by
  intro d hdd
  rw [he]
  exact h d (hd ▸ hdd)

theorem activatePart_deferOwned (t : Int) (el : Option Elem) (x y : Int)
    (s : TapState) (hs : s.activeDefer = none) :
    DeferOwned (activatePart t el x y s) := by
  intro d hd
  unfold activatePart at hd ⊢
  match el with
  | some e =>
    simp only [Option.some.injEq] at hd ⊢
    cases hd
    rfl
  | none =>
    simp only at hd
    rw [hs] at hd
    cases hd

theorem setActivatedElement_deferOwned (config : Config) (t : Int)
    (el : Option Elem) (x y : Int) (s s1 : TapState) (h : DeferOwned s)
    (hok : setActivatedElement config t el x y s = Except.ok s1) :
    DeferOwned s1 := by
  unfold setActivatedElement at hok
  split at hok
  · cases hok
    exact h
  · dsimp only at hok
    cases ha : s.activatableEle with
    | some a =>
      rw [ha] at hok
      dsimp only at hok
      split at hok
      · cases hok
      · cases hok
        refine activatePart_deferOwned _ _ _ _ _ ?_
        rw [removeActivated_activeDefer]
        split
        · rfl
        · rw [addActivated_activeDefer]
    | none =>
      rw [ha] at hok
      dsimp only at hok
      cases hok
      exact activatePart_deferOwned _ _ _ _ _ rfl

theorem cancelActive_deferOwned (t : Int) (s : TapState) :
    DeferOwned (cancelActive t s) := by
  intro d hd
  rw [cancelActive_activeDefer] at hd
  cases hd

theorem step_deferOwned (config : Config) (s : TapState) (ev : Ev)
    (s1 : TapState) (h : DeferOwned s)
    (hok : step config s ev = Except.ok s1) : DeferOwned s1 := by
  cases ev with
  | touchStart e =>
    simp only [step, onTouchStart, pointerDown] at hok
    split at hok
    · cases hok
      exact deferOwned_congr h rfl rfl
    · refine setActivatedElement_deferOwned _ _ _ _ _ _ _ ?_ hok
      exact deferOwned_congr h rfl rfl
  | touchEnd e =>
    simp only [step, onTouchEnd, pointerUp] at hok
    split at hok
    · cases hok
      exact deferOwned_congr h rfl rfl
    · refine setActivatedElement_deferOwned _ _ _ _ _ _ _ ?_ hok
      exact deferOwned_congr h rfl rfl
  | mouseDown e =>
    simp only [step, onMouseDown, pointerDown] at hok
    split at hok
    · split at hok
      · cases hok
        exact h
      · refine setActivatedElement_deferOwned _ _ _ _ _ _ _ ?_ hok
        exact deferOwned_congr h rfl rfl
    · cases hok
      exact h
  | mouseUp e =>
    simp only [step, onMouseUp, pointerUp] at hok
    split at hok
    · split at hok
      · cases hok
        exact h
      · exact setActivatedElement_deferOwned _ _ _ _ _ _ _ h hok
    · cases hok
      exact h
  | scrollStart t =>
    cases hok
    exact cancelActive_deferOwned t _
  | scrollEnd =>
    cases hok
    exact deferOwned_congr h rfl rfl
  | gestureCaptured t =>
    cases hok
    exact cancelActive_deferOwned t s
  | fireAdd =>
    simp only [step] at hok
    split at hok
    next d hd =>
      cases hok
      intro d1 hd1
      simp only at hd1
      cases hd1
    next =>
      cases hok
      exact h
  | fireClear id =>
    simp only [step] at hok
    split at hok
    next ft hft =>
      cases hok
      exact deferOwned_congr h rfl rfl
    next =>
      cases hok
      exact h

theorem runFrom_deferOwned (config : Config) (evs : List Ev) :
    ∀ s s1 : TapState, DeferOwned s →
      runFrom config s evs = Except.ok s1 → DeferOwned s1 := by
  induction evs with
  | nil =>
    intro s s1 h hok
    cases hok
    exact h
  | cons e es ih =>
    intro s s1 h hok
    simp only [runFrom] at hok
    split at hok
    next s2 hs2 => exact ih s2 s1 (step_deferOwned config s e s2 h hs2) hok
    next => cases hok

theorem deferOwned_initState : DeferOwned initState := by
  intro d hd
  simp [initState] at hd

/-! Concrete fixtures for evaluating the machine on small inputs. -/

/-- A non-instant activatable element with no ripple sub-element. -/
def elemA : Elem := ⟨1, true, false, none, none⟩

/-- A second, distinct non-instant activatable element. -/
def elemB : Elem := ⟨2, true, false, none, none⟩

/-- A configuration with both keys absent (both flags default to true). -/
def cfg0 : Config := ⟨none, none⟩

/-- A pointer-down style input event at time `t` whose target chain
resolves to `e`. -/
def evDown (t : Int) (e : Elem) : InputEv := ⟨t, 5, 5, true, none, [e]⟩

/-- A pointer-up style input event at time `t` with no activatable target. -/
def evUp (t : Int) : InputEv := ⟨t, 5, 5, true, none, []⟩

/-- Extract the final state of an error-free run (defaulting to the
initial state, which no run in this file hits). -/
def okState (r : Except String TapState) : TapState :=
  match r with
  | Except.ok s => s
  | Except.error _ => initState

/-! Claim C1. -/

/-- A state in which `elemA` is activating and was last activated at
time 0. -/
def sC1 : TapState := { initState with activatableEle := some elemA, lastActivated := 0 }

/-- Claim C1 counterexample: calling removeActivated with smooth = true
at time 100 on a state with lastActivatedTimestamp 0 (elapsed 100 <
CLEAR_STATE_DEFERS, element not instant), the registered clear timer
fires at 300 = 100 + CLEAR_STATE_DEFERS, the full period after the call,
and not at 200 = 100 + the remaining duration (CLEAR_STATE_DEFERS minus
the elapsed 100), contradicting the claim. -/
theorem removeActivated_remaining_duration_cex :
    lookupDefer (removeActivated 100 true sC1).clearDefers elemA.id = some 300
    ∧ (300 : Int) ≠ 100 + (CLEAR_STATE_DEFERS - (100 - sC1.lastActivated)) :=
  ⟨by decide, by decide⟩

/-- Claim C1 (amended): for every call to removeActivated with
smooth = true where the elapsed time since lastActivatedTimestamp is less
than CLEAR_STATE_DEFERS and the active element is not marked instant, the
removal of the activated marker is not performed immediately (the marker
set is unchanged); instead a deferred clear is registered to fire
CLEAR_STATE_DEFERS time units after the call — the full period, not the
remaining duration. -/
theorem removeActivated_smooth_defers (t : Int) (s : TapState) (a : Elem)
    (ha : s.activatableEle = some a) (hin : isInstant a = false)
    (hel : t - s.lastActivated < CLEAR_STATE_DEFERS) :
    lookupDefer (removeActivated t true s).clearDefers a.id = some (t + CLEAR_STATE_DEFERS)
    ∧ (removeActivated t true s).activated = s.activated := by
  unfold removeActivated
  rw [ha]
  dsimp only
  split
  next hcond => exact ⟨lookupDefer_setDefer_self _ _ _, rfl⟩
  next hcond =>
    exfalso
    apply hcond
    refine ⟨rfl, ?_, by simp [hin]⟩
    have h200 : CLEAR_STATE_DEFERS = 200 := rfl
    rw [h200] at hel ⊢
    omega

/-- Witness for removeActivated_smooth_defers: the concrete call of the
counterexample scenario, with all hypotheses discharged by computation. -/
theorem removeActivated_smooth_defers_witness :
    lookupDefer (removeActivated 100 true sC1).clearDefers elemA.id
      = some (100 + CLEAR_STATE_DEFERS) :=
  (removeActivated_smooth_defers 100 sC1 elemA rfl rfl (by decide)).1

/-! Claim C2. -/

/-- Trace: pointer-down resolving to A at time 0, pointer-down resolving
to B at time 50 (before A's 200-unit delay), then the pending add timer
fires. -/
def trC2 : List Ev :=
  [Ev.touchStart (evDown 0 elemA), Ev.touchStart (evDown 50 elemB), Ev.fireAdd]

/-- The state after the two pointer-downs of `trC2`, before the timer fires. -/
def sC2mid : TapState := okState (runTrace cfg0 (List.take 2 trC2))

/-- The final state of `trC2`. -/
def sC2 : TapState := okState (runTrace cfg0 trC2)

/-- Claim C2 counterexample: after pointer-down on A at 0 and pointer-down
on B at 50, the pending activation timer still belongs to A (nothing was
started for B), and when that timer fires A does receive the activated
marker: the activation log is exactly [A] and contains no entry for B. -/
theorem second_pointerDown_cex :
    sC2mid.activeDefer = some ⟨elemA, 5, 5, 200⟩
    ∧ sC2mid.activatableEle = some elemA
    ∧ elemA.id ∈ sC2.activated
    ∧ sC2.activationLog = [elemA.id]
    ∧ elemB.id ∉ sC2.activationLog :=
  ⟨by decide, by decide, by decide, by decide, by decide⟩

/-- Claim C2 (amended): a pointer-down arriving while an element is
already activating is ignored entirely — the state is unchanged, so no
fresh timer is started for the new target B — and the pending
add-activated timer still fires for its own element A, which then
receives the activated marker. -/
theorem pointerDown_ignored_while_activating (config : Config) (ev : InputEv)
    (s : TapState) (h : s.activatableEle.isSome = true) :
    pointerDown config ev s = Except.ok s
    ∧ ∀ d : AddTimer, s.activeDefer = some d →
        ∃ s1, step config s Ev.fireAdd = Except.ok s1 ∧ d.el.id ∈ s1.activated := by
  constructor
  · unfold pointerDown
    rw [if_pos (Or.inl h)]
  · intro d hd
    have hstep : step config s Ev.fireAdd =
        Except.ok { addActivated config d.fireAt d.el d.x d.y s with activeDefer := none } := by
      simp only [step, hd]
    refine ⟨_, hstep, ?_⟩
    show d.el.id ∈ (addActivated config d.fireAt d.el d.x d.y s).activated
    rw [addActivated_activated]
    exact mem_addClass _ _

/-- The state after a single pointer-down on A at time 0. -/
def sC2w : TapState := okState (runTrace cfg0 [Ev.touchStart (evDown 0 elemA)])

/-- Witness for pointerDown_ignored_while_activating: a pointer-down on B
at time 50 while A is activating leaves the state unchanged. -/
theorem pointerDown_ignored_while_activating_witness :
    pointerDown cfg0 (evDown 50 elemB) sC2w = Except.ok sC2w :=
  (pointerDown_ignored_while_activating cfg0 (evDown 50 elemB) sC2w rfl).1

/-! Claim C3. -/

/-- Trace: tap A (timer fires at 200, marker applied), release at 210
(deferred clear registered, marker still applied), press B at 220. -/
def trC3 : List Ev :=
  [Ev.touchStart (evDown 0 elemA), Ev.fireAdd, Ev.touchEnd (evUp 210),
   Ev.touchStart (evDown 220 elemB)]

/-- The final state of `trC3`. -/
def sC3 : TapState := okState (runTrace cfg0 trC3)

/-- Claim C3 counterexample: in the final state of `trC3`, element A
still carries the activated marker (its deferred clear is pending) while
distinct element B holds the pending add-activated timer, so two
elements simultaneously carry the marker or a pending add timer. -/
theorem exclusivity_marker_cex :
    elemA.id ∈ sC3.activated
    ∧ sC3.activeDefer = some ⟨elemB, 5, 5, 420⟩
    ∧ lookupDefer sC3.clearDefers elemA.id = some 410
    ∧ elemA.id ≠ elemB.id :=
  ⟨by decide, by decide, by decide, by decide⟩

/-- Claim C3 (amended): at most one element holds the activating slot at
any instant (the slot is a single optional reference), and any pending
add-activated timer belongs to the slot's element; however, an element
deactivated with smoothing can still carry the activated marker while
the next element's add timer is pending, so exclusivity does not extend
to the marker itself. -/
theorem activating_slot_exclusive (config : Config) (evs : List Ev)
    (s : TapState) (h : runTrace config evs = Except.ok s) :
    ∀ d : AddTimer, s.activeDefer = some d → s.activatableEle = some d.el :=
  runFrom_deferOwned config evs initState s deferOwned_initState h

/-- The state after a single pointer-down on A at time 0 (C3 fixture). -/
def sC3w : TapState := okState (runTrace cfg0 [Ev.touchStart (evDown 0 elemA)])

/-- Witness for activating_slot_exclusive: after pointer-down on A, the
pending timer belongs to A, which owns the slot. -/
theorem activating_slot_exclusive_witness :
    sC3w.activatableEle = some (AddTimer.mk elemA 5 5 200).el :=
  activating_slot_exclusive cfg0 [Ev.touchStart (evDown 0 elemA)] sC3w rfl
    ⟨elemA, 5, 5, 200⟩ rfl

/-! Claim C5. -/

/-- Claim C5: for every sequence of events processed through the public
handlers and timer firings, the run never raises the internal error: in
every reachable state the activating element has no pending entry in the
deferred-clear registry (SlotClear), so the deactivation branch's throw
is unreachable. -/
theorem internalError_unreachable (config : Config) (evs : List Ev) :
    ∃ s, runTrace config evs = Except.ok s ∧ SlotClear s := by
  exact runFrom_ok config evs initState slotClear_initState

/-! Claim C4. -/

theorem activatePart_lastTouch (t : Int) (el : Option Elem) (x y : Int)
    (s : TapState) : (activatePart t el x y s).lastTouch = s.lastTouch := by
  cases el <;> rfl

theorem setActivatedElement_lastTouch (config : Config) (t : Int)
    (el : Option Elem) (x y : Int) (s s1 : TapState)
    (hok : setActivatedElement config t el x y s = Except.ok s1) :
    s1.lastTouch = s.lastTouch := by
  unfold setActivatedElement at hok
  split at hok
  · cases hok
    rfl
  · dsimp only at hok
    cases ha : s.activatableEle with
    | some a =>
      rw [ha] at hok
      dsimp only at hok
      split at hok
      · cases hok
      · cases hok
        rw [activatePart_lastTouch, removeActivated_lastTouch]
        split
        · rfl
        · rw [addActivated_lastTouch]
    | none =>
      rw [ha] at hok
      dsimp only at hok
      cases hok
      rw [activatePart_lastTouch]

theorem pointerDown_lastTouch (config : Config) (ev : InputEv) (s s1 : TapState)
    (hok : pointerDown config ev s = Except.ok s1) :
    s1.lastTouch = s.lastTouch := by
  unfold pointerDown at hok
  split at hok
  · cases hok
    rfl
  · have h := setActivatedElement_lastTouch _ _ _ _ _ _ _ hok
    exact h

/-- Claim C4: a mouse-down no later than MOUSE_WAIT after the last touch
is not forwarded to pointerDown — the state is unchanged, so the
touch/mouse pair produces a single activation, not two; a mouse-down
strictly later than MOUSE_WAIT after the last touch is forwarded to
pointerDown; and a touch-start records its own time as lastTouch, so the
window is measured from the touch. -/
theorem mouseDown_dedup (config : Config) (mev : InputEv) (s : TapState) :
    (mev.time - s.lastTouch ≤ MOUSE_WAIT → onMouseDown config mev s = Except.ok s)
    ∧ (mev.time - s.lastTouch > MOUSE_WAIT →
        onMouseDown config mev s = pointerDown config mev s)
    ∧ (∀ tev : InputEv, ∀ s1 : TapState,
        onTouchStart config tev s = Except.ok s1 → s1.lastTouch = tev.time) := by
  refine ⟨?_, ?_, ?_⟩
  · intro hle
    unfold onMouseDown
    rw [if_neg (by omega)]
  · intro hgt
    unfold onMouseDown
    rw [if_pos (by omega)]
  · intro tev s1 hok
    unfold onTouchStart at hok
    exact pointerDown_lastTouch _ _ _ _ hok

/-- The state after a single pointer-down on A at time 0 (C4 fixture). -/
def sC4w : TapState := okState (runTrace cfg0 [Ev.touchStart (evDown 0 elemA)])

/-- Witness for mouseDown_dedup: a mouse-down at time 100, within
MOUSE_WAIT of the touch at time 0, is suppressed. -/
theorem mouseDown_dedup_witness :
    onMouseDown cfg0 (evDown 100 elemB) sC4w = Except.ok sC4w :=
  (mouseDown_dedup cfg0 (evDown 100 elemB) sC4w).1 (by decide)

/-! Claim C6. -/

theorem cancelActive_removes_marker (t : Int) (s : TapState) (a : Elem)
    (ha : s.activatableEle = some a) :
    (cancelActive t s).activated = removeClass s.activated a.id
    ∧ (cancelActive t s).clearDefers = s.clearDefers := by
  unfold cancelActive
  dsimp only
  rw [ha]
  dsimp only
  unfold removeActivated
  dsimp only
  rw [if_neg (by simp)]
  exact ⟨rfl, rfl⟩

/-- Claim C6: every call to cancelActive clears the pending activation
timer, empties the activating slot, and sets the cancelled flag; if an
element was activating, its activated marker is removed immediately with
smoothing disabled (no deferred-clear entry is registered); and the body
click handler then suppresses a subsequent click. -/
theorem cancelActive_cancels (t : Int) (s : TapState) :
    (cancelActive t s).activeDefer = none
    ∧ (cancelActive t s).activatableEle = none
    ∧ (cancelActive t s).cancelled = true
    ∧ (∀ a : Elem, s.activatableEle = some a →
        a.id ∉ (cancelActive t s).activated
        ∧ (cancelActive t s).clearDefers = s.clearDefers)
    ∧ onBodyClick (cancelActive t s) = true := by
  refine ⟨cancelActive_activeDefer t s, cancelActive_activatableEle t s,
    cancelActive_cancelled t s, ?_, ?_⟩
  · intro a ha
    have h2 := cancelActive_removes_marker t s a ha
    refine ⟨?_, h2.2⟩
    rw [h2.1]
    exact not_mem_removeClass s.activated a.id
  · simp [onBodyClick, cancelActive_cancelled]

/-- A state where A is activating with an applied marker and a pending
add timer (C6 fixture). -/
def sC6 : TapState :=
  { initState with
    activatableEle := some elemA
    activated := [1]
    activeDefer := some ⟨elemA, 5, 5, 200⟩ }

/-- Witness for cancelActive_cancels: cancelling at time 100 on sC6. -/
theorem cancelActive_cancels_witness :
    (cancelActive 100 sC6).activatableEle = none
    ∧ elemA.id ∉ (cancelActive 100 sC6).activated :=
  ⟨(cancelActive_cancels 100 sC6).2.1,
   ((cancelActive_cancels 100 sC6).2.2.2.1 elemA rfl).1⟩

/-! Claim C7. -/

theorem findActivatable_eq (l : List Node) (k : Nat) :
    findActivatable l k =
      (List.find? (fun n => n.hasClassList && n.elem.activatable)
        (List.take k l)).map Node.elem := by
  induction l generalizing k with
  | nil => cases k <;> rfl
  | cons n rest ih =>
    cases k with
    | zero => rfl
    | succ k =>
      simp only [findActivatable, List.take_succ_cons]
      by_cases h : n.hasClassList ∧ n.elem.activatable
      · rw [if_pos h, List.find?_cons_of_pos _ (by simp [h.1, h.2])]
        rfl
      · rw [if_neg h, List.find?_cons_of_neg _ (by simpa using h)]
        exact ih k

/-- Claim C7: the target resolver: when a composed path is available it
scans from the innermost entry outward, skipping the last two entries,
and returns the first element whose class list contains ion-activatable
(and none when no scanned entry qualifies); when no composed path is
available it walks the plain ancestor chain of the event target for that
class. -/
theorem getActivatableTarget_resolves (ev : InputEv) :
    (∀ path : List Node, ev.composedPath = some path →
      getActivatableTarget ev =
        (List.find? (fun n => n.hasClassList && n.elem.activatable)
          (List.take (path.length - 2) path)).map Node.elem)
    ∧ (ev.composedPath = none →
      getActivatableTarget ev = List.find? (fun e => e.activatable) ev.targetChain)
    ∧ (∀ path : List Node, ev.composedPath = some path →
        (∀ n ∈ path, (n.hasClassList && n.elem.activatable) = false) →
        getActivatableTarget ev = none) := by
  refine ⟨?_, ?_, ?_⟩
  · intro path hp
    unfold getActivatableTarget
    rw [hp]
    exact findActivatable_eq path (path.length - 2)
  · intro hp
    unfold getActivatableTarget
    rw [hp]
  · intro path hp hall
    unfold getActivatableTarget
    rw [hp]
    dsimp only
    rw [findActivatable_eq]
    have hnone : List.find? (fun n => n.hasClassList && n.elem.activatable)
        (List.take (path.length - 2) path) = none := by
      rw [List.find?_eq_none]
      intro x hx
      simp [hall x (List.mem_of_mem_take hx)]
    rw [hnone]
    rfl

/-- An event exposing a composed path of four entries: a classList-less
entry, then activatable A, then two outer-host entries to be skipped. -/
def evPath : InputEv :=
  ⟨0, 5, 5, true,
   some [⟨false, elemB⟩, ⟨true, elemA⟩, ⟨true, elemB⟩, ⟨true, ⟨3, false, false, none, none⟩⟩],
   []⟩

/-- Witness for getActivatableTarget_resolves: on evPath the resolver
finds A (the first activatable entry among all but the last two). -/
theorem getActivatableTarget_resolves_witness :
    getActivatableTarget evPath = some elemA :=
  ((getActivatableTarget_resolves evPath).1 _ rfl).trans (by decide)

/-! Claim C8. -/

/-- Claim C8: addActivated applies the activated marker and records the
timestamp in every configuration, and invokes the ripple capability at
the pointer coordinates exactly when both configuration booleans
(animated and rippleEffect, each defaulting to true when absent) are
true and the element hosts a ripple sub-element exposing addRipple; if
either flag is false, no ripple is invoked. -/
theorem addActivated_ripple_gate (config : Config) (t : Int) (el : Elem)
    (x y : Int) (s : TapState) :
    el.id ∈ (addActivated config t el x y s).activated
    ∧ (addActivated config t el x y s).lastActivated = t
    ∧ (∀ r : RippleEl, getBoolean config.animated true = true →
        getBoolean config.rippleEffect true = true →
        getRippleEffect el = some r → r.hasAddRipple = true →
        (addActivated config t el x y s).rippleLog = s.rippleLog ++ [(el.id, x, y)])
    ∧ ((getBoolean config.animated true = false
          ∨ getBoolean config.rippleEffect true = false) →
        (addActivated config t el x y s).rippleLog = s.rippleLog) := by
  refine ⟨?_, ?_, ?_, ?_⟩
  · rw [addActivated_activated]
    exact mem_addClass _ _
  · exact addActivated_lastActivated config t el x y s
  · intro r hanim hrip hget hadd
    have hu : useRippleEffect config = true := by
      simp [useRippleEffect, hanim, hrip]
    unfold addActivated
    dsimp only
    rw [if_pos hu, hget]
    dsimp only
    rw [if_pos hadd]
  · intro hor
    have hu : ¬ useRippleEffect config = true := by
      rcases hor with h1 | h1 <;> simp [useRippleEffect, h1]
    unfold addActivated
    dsimp only
    rw [if_neg hu]

/-- An activatable element hosting a shadow ripple with addRipple. -/
def elemR : Elem := ⟨4, true, false, some ⟨true⟩, none⟩

/-- A configuration with the rippleEffect flag explicitly false. -/
def cfgNoRipple : Config := ⟨none, some false⟩

/-- Witness for addActivated_ripple_gate: with rippleEffect = false, no
ripple is logged even though elemR hosts one, while the marker is still
applied. -/
theorem addActivated_ripple_gate_witness :
    (addActivated cfgNoRipple 7 elemR 5 5 initState).rippleLog = initState.rippleLog
    ∧ elemR.id ∈ (addActivated cfgNoRipple 7 elemR 5 5 initState).activated :=
  ⟨(addActivated_ripple_gate cfgNoRipple 7 elemR 5 5 initState).2.2.2 (Or.inr rfl),
   (addActivated_ripple_gate cfgNoRipple 7 elemR 5 5 initState).1⟩

end TapClick

namespace Accordion

/-! Claim C9. -/

/-- Claim C9: toggleExpanded never mutates the accordion's own state
(expanded and value included): the state component of its result is the
input state unchanged; when a group ancestor exists the emitted request
carries the accordion's value and the negation of its expanded flag; with
no group, nothing is emitted. -/
theorem toggleExpanded_frame (a : AccordionState) :
    (toggleExpanded a).1 = a
    ∧ (∀ g : AccordionGroup, a.accordionGroupEl = some g →
        (toggleExpanded a).2 = some ⟨a.value, !a.expanded⟩)
    ∧ (a.accordionGroupEl = none → (toggleExpanded a).2 = none) := by
  refine ⟨?_, ?_, ?_⟩
  · unfold toggleExpanded
    cases hg : a.accordionGroupEl <;> rfl
  · intro g hg
    unfold toggleExpanded
    rw [hg]
  · intro hg
    unfold toggleExpanded
    rw [hg]

/-- A collapsed accordion with value "x" inside a group (C9 fixture). -/
def accC9 : AccordionState := ⟨false, some "x", some ⟨GroupValue.undef⟩⟩

/-- Witness for toggleExpanded_frame: on accC9 the state is returned
unchanged and the request asks the group to expand "x". -/
theorem toggleExpanded_frame_witness :
    (toggleExpanded accC9).1 = accC9
    ∧ (toggleExpanded accC9).2 = some ⟨some "x", true⟩ :=
  ⟨(toggleExpanded_frame accC9).1,
   (toggleExpanded_frame accC9).2.1 ⟨GroupValue.undef⟩ rfl⟩

/-! Claim C10. -/

/-- Claim C10: updateState leaves the state unchanged when the
accordion's own value is undefined or no enclosing group element was
found; otherwise it sets expanded to whether the group's value — a
single value or an array — matches or contains the accordion's value
(and changes nothing else). -/
theorem updateState_expanded (a : AccordionState) :
    (a.value = none → updateState a = a)
    ∧ (a.accordionGroupEl = none → updateState a = a)
    ∧ (∀ av : String, ∀ g : AccordionGroup, a.value = some av →
        a.accordionGroupEl = some g →
        updateState a = { a with expanded := valueMatches g.value av })
    ∧ (∀ av v : String, valueMatches (GroupValue.one v) av = decide (v = av))
    ∧ (∀ av : String, ∀ vs : List String,
        valueMatches (GroupValue.many vs) av = decide (av ∈ vs))
    ∧ (∀ av : String, valueMatches GroupValue.undef av = false) := by
  refine ⟨?_, ?_, ?_, ?_, ?_, ?_⟩
  · intro h
    unfold updateState
    rw [h]
  · intro h
    unfold updateState
    rw [h]
    cases hv : a.value <;> rfl
  · intro av g hv hg
    unfold updateState
    rw [hv, hg]
  · intro av v
    rfl
  · intro av vs
    rfl
  · intro av
    rfl

/-- An accordion with value "x" inside a group whose multi-value contains
"x" (C10 fixture). -/
def accC10 : AccordionState := ⟨false, some "x", some ⟨GroupValue.many ["y", "x"]⟩⟩

/-- Witness for updateState_expanded: on accC10, expanded is recomputed
from the group's array value. -/
theorem updateState_expanded_witness :
    updateState accC10 = { accC10 with
      expanded := valueMatches (GroupValue.many ["y", "x"]) "x" } :=
  (updateState_expanded accC10).2.2.1 "x" ⟨GroupValue.many ["y", "x"]⟩ rfl rfl

end Accordion
